import Mathlib

/-!
Verification development for the Opvera repository.

The points/leaderboard subsystem lives in `supabase.sql` as plpgsql
functions (`calculate_quiz_points`, `calculate_assignment_points`,
`calculate_project_points`, `calculate_challenge_points`,
`update_leaderboard`, `refresh_user_leaderboard`,
`refresh_all_leaderboard`), trigger declarations and row-level-security
policies.  This file gives a shallow embedding of that subsystem:
tables become lists of records, each SQL query becomes the
corresponding list computation (FROM/JOIN as a cross product, WHERE as
a filter, COUNT/SUM as length/sum, `WITH ORDINALITY` as 1-based
enumeration), and the trigger and upsert machinery becomes explicit
state passing over a `DB` record.

Several of these plpgsql statements are statically ill-formed and
raise on every execution: the quiz subtotal compares `jsonb` with
`integer` (no such operator exists, error 42883), the assignment
subtotal's bare `student_id` and the rank update's bare `total_points`
/ `user_id` collide with plpgsql variables of the same names (plpgsql
default `variable_conflict = error`, error 42702), and the trigger
function's `COALESCE(NEW.student_id, NEW.owner_id, NEW.user_id)`
references record fields absent from every attached table's row type
(`record "new" has no field ...`).  The embedding therefore gives each
function two readings: the faithful one, an `Except SqlError`
computation whose static checks are modelled from the catalogue facts
(the tables' column lists, each function's declared variable names, the
operand types of the comparison) and which consequently errors exactly
where PostgreSQL does, and an `_intended` one that carries the
computation the query text describes, used to settle what the code was
meant to do.  An error from a function or trigger aborts the enclosing
statement's transaction, so an `.error` result stands for "no state
change".  The AI-call wrapper
(`src/lib/geminiClient.js`) is referenced by the repository's
documentation but its source is not part of the packaged sources, so
it is modelled from the spec where needed, as marked.

UUID columns are modelled as `Nat` identifiers, timestamps as `Nat`
(only presence/absence and equality of timestamps matter to the
claims), SQL `INTEGER` as `Int`, and jsonb arrays as Lean lists.
-/

namespace Opvera

/-- Roles from `users.role CHECK (role IN ('student','mentor','company','admin','banned'))`. -/
inductive Role where
  | student
  | mentor
  | company
  | admin
  | banned
deriving DecidableEq, Repr

/-- A row of the `users` table (only the columns the claims touch). -/
structure User where
  id : Nat
  role : Role
deriving DecidableEq, Repr

/-- A row of the `projects` table: `owner_id`, `tags TEXT[]`, `verified BOOLEAN`. -/
structure Project where
  id : Nat
  owner_id : Nat
  tags : List String
  verified : Bool
deriving DecidableEq, Repr

/-- A row of the `assignments` table: `student_id`, nullable `submission_url`. -/
structure Assignment where
  id : Nat
  student_id : Nat
  submission_url : Option String
deriving DecidableEq, Repr

/-- One element of `quizzes.questions` (jsonb array of
`{question, options, correctIndex, explanation}`). -/
structure Question where
  question : String
  options : List String
  correctIndex : Int
  explanation : String
deriving DecidableEq, Repr

/-- A row of the `quizzes` table. -/
structure Quiz where
  id : Nat
  created_by : Nat
  questions : List Question
deriving DecidableEq, Repr

/-- A row of the `quiz_attempts` table: `answers` is the jsonb array of
submitted option indices, `completed_at` is nullable (NULL = in progress). -/
structure QuizAttempt where
  id : Nat
  quiz_id : Nat
  student_id : Nat
  answers : List Int
  completed_at : Option Nat
deriving DecidableEq, Repr

/-- The jsonb `breakdown` object written by the leaderboard upsert:
`jsonb_build_object('quizzes', _, 'assignments', _, 'projects', _, 'challenges', _)`. -/
structure Breakdown where
  quizzes : Int
  assignments : Int
  projects : Int
  challenges : Int
deriving DecidableEq, Repr

/-- A row of the `leaderboard` table. `rank` is nullable: a freshly
inserted row has no rank until the rank update statement runs. -/
structure LeaderboardEntry where
  user_id : Nat
  total_points : Int
  breakdown : Breakdown
  rank : Option Nat
  updated_at : Nat
deriving DecidableEq, Repr

/-- Database state: the tables read or written by the leaderboard subsystem. -/
structure DB where
  users : List User
  projects : List Project
  assignments : List Assignment
  quizzes : List Quiz
  quiz_attempts : List QuizAttempt
  leaderboard : List LeaderboardEntry
deriving DecidableEq, Repr

/-- The tables of `supabase.sql` (trigger-attachment points and
column-catalogue keys). -/
inductive Table where
  | users
  | projects
  | assignments
  | quizzes
  | quiz_attempts
  | leaderboard
deriving DecidableEq, Repr

/-- The column names of each table, from the `CREATE TABLE` statements
of `supabase.sql`. -/
def tableColumns : Table → List String
  | .users => ["id", "auth_uid", "role", "display_name", "email", "avatar_url", "bio",
               "skills", "socials", "banned", "created_at", "updated_at"]
  | .projects => ["id", "owner_id", "title", "description", "files", "github_url", "tags",
                  "points_awarded", "verified", "mentor_notes", "created_at", "updated_at"]
  | .assignments => ["id", "student_id", "title", "submission_url", "points", "verified",
                     "mentor_notes", "created_at", "updated_at"]
  | .quizzes => ["id", "created_by", "title", "description", "questions", "difficulty",
                 "topic", "ai_generated", "metadata", "created_at", "updated_at"]
  | .quiz_attempts => ["id", "quiz_id", "student_id", "answers", "score", "max_score",
                       "completed_at", "metadata", "created_at", "updated_at"]
  | .leaderboard => ["user_id", "total_points", "breakdown", "rank", "updated_at"]

/-- SQL scalar types involved in the quiz subtotal's WHERE clause. -/
inductive SqlType where
  | integer
  | jsonb
deriving DecidableEq, Repr

/-- Errors raised by the embedded SQL/plpgsql execution. -/
inductive SqlError where
  /-- 42883: no operator matches the operand types and no implicit cast exists. -/
  | operatorDoesNotExist (lhs rhs : SqlType)
  /-- 42702: with plpgsql's default `variable_conflict = error`, a bare name that
  matches both a column of the queried table and a plpgsql variable is rejected. -/
  | ambiguousColumn (name : String)
  /-- plpgsql: a referenced field of a record variable (here `NEW`) that is absent
  from the record's row type. -/
  | recordFieldMissing (recordName fieldName : String)
deriving DecidableEq, Repr

/-- Whether `=` resolves for the given operand types: PostgreSQL has
same-type equality for both, but no `jsonb = integer` operator and no
implicit cast between `jsonb` and `integer`, so cross-type equality
fails to resolve. -/
def eqOperatorResolvable : SqlType → SqlType → Bool
  | .integer, .integer => true
  | .jsonb, .jsonb => true
  | _, _ => false

/-- plpgsql default `variable_conflict = error`: a bare identifier in an
embedded SQL statement that names both a column of a table in the query
and a declared plpgsql variable or parameter is ambiguous. -/
def nameAmbiguous (columns vars : List String) (name : String) : Bool :=
  decide (name ∈ columns) && decide (name ∈ vars)

/-- Parameter and `DECLARE` names of `calculate_quiz_points`. -/
def calculate_quiz_points_vars : List String := ["student_id", "total_points"]

/-- Parameter and `DECLARE` names of `calculate_assignment_points`. -/
def calculate_assignment_points_vars : List String := ["student_id", "total_points"]

/-- Parameter and `DECLARE` names of `calculate_project_points`. -/
def calculate_project_points_vars : List String := ["student_id", "total_points"]

/-- Parameter and `DECLARE` names of `calculate_challenge_points`. -/
def calculate_challenge_points_vars : List String := ["student_id", "total_points"]

/-- `DECLARE` names of the trigger function `update_leaderboard` (it has
no parameters). -/
def update_leaderboard_vars : List String :=
  ["target_user_id", "quiz_points", "assignment_points", "project_points",
   "challenge_points", "total_points"]

/-- Parameter and `DECLARE` names of `refresh_user_leaderboard`. -/
def refresh_user_leaderboard_vars : List String :=
  ["user_id", "quiz_points", "assignment_points", "project_points",
   "challenge_points", "total_points"]

/-- `WITH ORDINALITY`: pair each element with its 1-based ordinal.
`ordFrom n l` enumerates `l` starting at ordinal `n`. -/
def ordFrom (n : Nat) : List α → List (α × Nat)
  | [] => []
  | a :: as => (a, n) :: ordFrom (n + 1) as

/-- SQL cross product of two row sources (a `JOIN` before its `ON` filter). -/
def crossJoin : List α → List β → List (α × β)
  | [], _ => []
  | x :: xs, ys => ys.map (fun y => (x, y)) ++ crossJoin xs ys

/-- The join condition and WHERE clause of the correlated subquery in
`calculate_quiz_points`: `ans.idx = ques.qidx` and
`ans.answer = (ques.question->>'correctIndex')::integer`. -/
def quizJoinP (p : (Int × Nat) × (Question × Nat)) : Bool :=
  decide (p.1.2 = p.2.2 ∧ p.1.1 = p.2.1.correctIndex)

/-- Position-wise correctness of one zipped (answer, question) pair. -/
def quizZipP (p : Int × Question) : Bool :=
  decide (p.1 = p.2.correctIndex)

/-- The correlated subquery inside `calculate_quiz_points`:
`SELECT COUNT(*) FROM jsonb_array_elements(qa.answers) WITH ORDINALITY AS ans(answer, idx)
 JOIN jsonb_array_elements(q.questions) WITH ORDINALITY AS ques(question, qidx)
 ON ans.idx = ques.qidx
 WHERE ans.answer = (ques.question->>'correctIndex')::integer`. -/
def correctAnswerCount (answers : List Int) (questions : List Question) : Nat :=
  (crossJoin (ordFrom 1 answers) (ordFrom 1 questions)).countP quizJoinP

/-- The computation the text of `calculate_quiz_points` (`supabase.sql`
lines 215-237) describes: sum, over the student's quiz attempts joined
to their quizzes, of the per-attempt correct-answer count for completed
attempts and 0 for attempts whose `completed_at` is NULL.  This is the
error-erased intended reading; the real function never reaches it (see
`calculate_quiz_points`). -/
def calculate_quiz_points_intended (db : DB) (student_id : Nat) : Int :=
  (((crossJoin db.quiz_attempts db.quizzes).filter
      (fun p => decide (p.1.quiz_id = p.2.id ∧ p.1.student_id = student_id))).map
    (fun p =>
      if p.1.completed_at.isSome then (correctAnswerCount p.1.answers p.2.questions : Int)
      else 0)).sum

/-- `calculate_quiz_points(student_id)`, faithful execution semantics.
Its WHERE clause is `ans.answer = (ques.question->>'correctIndex')::integer`:
`ans.answer` comes from `jsonb_array_elements` and has type `jsonb`,
the right-hand side is cast to `integer`, and no `jsonb = integer`
operator (or implicit cast) exists.  The statement is planned on the
function's first execution regardless of data, so every call raises
42883 before reading any row; the `.ok` branch carries the intended
computation and is unreachable. -/
def calculate_quiz_points (db : DB) (student_id : Nat) : Except SqlError Int :=
  if eqOperatorResolvable .jsonb .integer then
    .ok (calculate_quiz_points_intended db student_id)
  else
    .error (.operatorDoesNotExist .jsonb .integer)

/-- The computation the text of `calculate_assignment_points`
(`supabase.sql` lines 240-253) describes: `COUNT(*) * 20` over the
student's assignments with a non-NULL `submission_url`.  Error-erased
intended reading; the real function never reaches it (see
`calculate_assignment_points`). -/
def calculate_assignment_points_intended (db : DB) (student_id : Nat) : Int :=
  ((db.assignments.filter
      (fun a => decide (a.student_id = student_id ∧ a.submission_url.isSome))).length : Int) * 20

/-- `calculate_assignment_points(student_id)`, faithful execution
semantics.  Its WHERE clause `student_id = calculate_assignment_points.student_id`
references the bare name `student_id`, which is both a column of
`assignments` and the function's parameter; under plpgsql's default
`variable_conflict = error` every call raises 42702.  The `.ok` branch
carries the intended computation and is unreachable. -/
def calculate_assignment_points (db : DB) (student_id : Nat) : Except SqlError Int :=
  if nameAmbiguous (tableColumns .assignments) calculate_assignment_points_vars "student_id" then
    .error (.ambiguousColumn "student_id")
  else
    .ok (calculate_assignment_points_intended db student_id)

/-- `calculate_project_points(student_id)` from `supabase.sql` lines 256-269:
`COUNT(*) * 100` over the student's projects with `verified = true`
(there is no condition on `tags`).  Unlike the quiz and assignment
functions this one is statically clean and executes: its comparisons
are well-typed and its bare column references (`owner_id`, `verified`)
collide with none of its variables (`student_id`, `total_points`). -/
def calculate_project_points (db : DB) (student_id : Nat) : Int :=
  ((db.projects.filter
      (fun p => decide (p.owner_id = student_id ∧ p.verified = true))).length : Int) * 100

/-- `calculate_challenge_points(student_id)` from `supabase.sql` lines 272-288:
`COUNT(*) * 80` over the student's projects with `verified = true` and
`'challenge' = ANY(tags)`.  Statically clean and executable, like
`calculate_project_points` (bare `owner_id`, `verified`, `tags` collide
with no variable). -/
def calculate_challenge_points (db : DB) (student_id : Nat) : Int :=
  ((db.projects.filter
      (fun p => decide (p.owner_id = student_id ∧ p.verified = true ∧ "challenge" ∈ p.tags))).length : Int) * 80

/-- The row the leaderboard upsert in `update_leaderboard` and
`refresh_user_leaderboard` is meant to assemble: the four category
subtotals, their sum as `total_points`, the breakdown object,
`updated_at = NOW()`, and no rank (the INSERT does not mention the
`rank` column).  Intended reading: the real pipeline raises inside
`calculate_quiz_points` before any such row exists. -/
def computeEntry_intended (db : DB) (uid : Nat) (now : Nat) : LeaderboardEntry :=
  let quiz_points := calculate_quiz_points_intended db uid
  let assignment_points := calculate_assignment_points_intended db uid
  let project_points := calculate_project_points db uid
  let challenge_points := calculate_challenge_points db uid
  { user_id := uid
    total_points := quiz_points + assignment_points + project_points + challenge_points
    breakdown :=
      { quizzes := quiz_points
        assignments := assignment_points
        projects := project_points
        challenges := challenge_points }
    rank := none
    updated_at := now }

/-- `INSERT INTO leaderboard ... ON CONFLICT (user_id) DO UPDATE SET
total_points = EXCLUDED.total_points, breakdown = EXCLUDED.breakdown,
updated_at = EXCLUDED.updated_at`: a conflicting row keeps its `rank`,
a fresh row is appended with no rank. -/
def upsertLeaderboard (lb : List LeaderboardEntry) (e : LeaderboardEntry) :
    List LeaderboardEntry :=
  if lb.any (fun x => decide (x.user_id = e.user_id)) then
    lb.map (fun x =>
      if x.user_id = e.user_id then
        { x with total_points := e.total_points, breakdown := e.breakdown,
                 updated_at := e.updated_at }
      else x)
  else lb ++ [e]

/-- Descending order on `total_points`, the sort key of
`ROW_NUMBER() OVER (ORDER BY total_points DESC)`. -/
def byPointsDesc (a b : LeaderboardEntry) : Prop :=
  b.total_points ≤ a.total_points

instance : DecidableRel byPointsDesc := fun a b =>
  inferInstanceAs (Decidable (b.total_points ≤ a.total_points))

instance : IsTotal LeaderboardEntry byPointsDesc :=
  ⟨fun a b => le_total b.total_points a.total_points⟩

instance : IsTrans LeaderboardEntry byPointsDesc :=
  ⟨fun _ _ _ h1 h2 => le_trans h2 h1⟩

/-- `ROW_NUMBER()` of the row carrying `uid` in the sorted row list
`s`: 1 plus its position. -/
def rankOf (s : List LeaderboardEntry) (uid : Nat) : Nat :=
  1 + s.findIdx (fun x => decide (x.user_id = uid))

/-- The rank-update statement shared by `update_leaderboard` and
`refresh_user_leaderboard`:
`WITH ranked_users AS (SELECT user_id, ROW_NUMBER() OVER (ORDER BY total_points DESC) ...)
 UPDATE leaderboard SET rank = ranked_users.new_rank ... WHERE leaderboard.user_id = ranked_users.user_id`.
`ROW_NUMBER` leaves the relative order of equal `total_points`
unspecified; the embedding fixes one admissible order (a stable sort of
the current row list) to stay executable.  Every rank fact proved below
(ranks form 1..n; strictly greater total gets strictly smaller rank;
ties get distinct ranks) holds under any admissible tie order and does
not depend on this choice. -/
def assignRanks (lb : List LeaderboardEntry) : List LeaderboardEntry :=
  lb.map (fun e =>
    { e with rank := some (rankOf (lb.insertionSort byPointsDesc) e.user_id) })

/-- What `refresh_user_leaderboard(user_id)` (`supabase.sql` lines
346-392) is meant to do: recompute the four subtotals from the source
tables, upsert the user's leaderboard row, then rewrite every row's
rank.  Intended reading; the real function raises on every call (see
`refresh_user_leaderboard`). -/
def refresh_user_leaderboard_intended (db : DB) (uid : Nat) (now : Nat) : DB :=
  { db with leaderboard :=
      assignRanks (upsertLeaderboard db.leaderboard (computeEntry_intended db uid now)) }

/-- `refresh_user_leaderboard(user_id)`, faithful execution semantics,
following the source's statement order: `quiz_points :=
calculate_quiz_points(user_id)` raises 42883 (so every call fails
here); `assignment_points := calculate_assignment_points(user_id)`
would raise 42702; the project and challenge subtotals are clean; and
the final rank statement's CTE references bare `user_id` and
`total_points`, both ambiguous with this function's variables (42702).
An error aborts the function's transaction, so the upsert preceding the
rank statement does not survive an error raised there; the embedding
therefore produces the new state only when every statement passes its
checks. -/
def refresh_user_leaderboard (db : DB) (uid : Nat) (now : Nat) : Except SqlError DB :=
  match calculate_quiz_points db uid with
  | .error e => .error e
  | .ok quiz_points =>
    match calculate_assignment_points db uid with
    | .error e => .error e
    | .ok assignment_points =>
      let project_points := calculate_project_points db uid
      let challenge_points := calculate_challenge_points db uid
      let total_points := quiz_points + assignment_points + project_points + challenge_points
      if nameAmbiguous (tableColumns .leaderboard) refresh_user_leaderboard_vars "user_id" then
        .error (.ambiguousColumn "user_id")
      else if nameAmbiguous (tableColumns .leaderboard) refresh_user_leaderboard_vars "total_points" then
        .error (.ambiguousColumn "total_points")
      else
        let entry : LeaderboardEntry :=
          { user_id := uid, total_points := total_points,
            breakdown := { quizzes := quiz_points, assignments := assignment_points,
                           projects := project_points, challenges := challenge_points },
            rank := none, updated_at := now }
        .ok { db with leaderboard := assignRanks (upsertLeaderboard db.leaderboard entry) }

/-- The `FOR user_record IN SELECT id FROM users WHERE role = 'student'`
loop of `refresh_all_leaderboard`: each iteration performs
`refresh_user_leaderboard(id)`; an error from any iteration propagates
and aborts the whole call. -/
def refreshLoop (now : Nat) : List Nat → DB → Except SqlError DB
  | [], d => .ok d
  | i :: rest, d =>
    match refresh_user_leaderboard d i now with
    | .error e => .error e
    | .ok d' => refreshLoop now rest d'

/-- `refresh_all_leaderboard()` from `supabase.sql` lines 395-410,
faithful execution semantics: `DELETE FROM leaderboard;` (statically
clean), then the student loop.  When any student user exists the first
iteration raises inside `calculate_quiz_points` and the whole call —
including the DELETE — rolls back (an `.error` result); with no student
users the loop body never runs and the call completes, leaving the
leaderboard empty. -/
def refresh_all_leaderboard (db : DB) (now : Nat) : Except SqlError DB :=
  refreshLoop now
    ((db.users.filter (fun u => decide (u.role = Role.student))).map User.id)
    { db with leaderboard := [] }

/-- What `refresh_all_leaderboard` is meant to do (error-erased):
clear the table, then re-create entries for every student. -/
def refresh_all_leaderboard_intended (db : DB) (now : Nat) : DB :=
  ((db.users.filter (fun u => decide (u.role = Role.student))).map User.id).foldl
    (fun d i => refresh_user_leaderboard_intended d i now)
    { db with leaderboard := [] }

/-- Which tables carry an `AFTER INSERT OR UPDATE ... EXECUTE FUNCTION
update_leaderboard()` trigger (`supabase.sql` lines 422-439:
`trigger_update_leaderboard_quiz_attempts`, `..._assignments`,
`..._projects`, plus the submission-transition trigger which is also on
`assignments`).  No trigger is declared on `leaderboard`. -/
def firesLeaderboardRecompute : Table → Bool
  | .quiz_attempts => true
  | .assignments => true
  | .projects => true
  | _ => false

/-- The values of the owner columns of a freshly written row, as the
`COALESCE(NEW.student_id, NEW.owner_id, NEW.user_id)` expression would
see them if its field references resolved; each source table has
exactly one of the three columns. -/
structure TriggerRow where
  student_id : Option Nat
  owner_id : Option Nat
  user_id : Option Nat
deriving DecidableEq, Repr

/-- The value `target_user_id := COALESCE(NEW.student_id, NEW.owner_id,
NEW.user_id)` would produce if the `NEW` field references resolved.  In
plpgsql they do not: the fields are resolved against the attached
table's row type when the expression is prepared, every trigger table
lacks at least two of the three, and the statement raises
`record "new" has no field ...` (see `newFieldCheck`), so this value is
never actually computed. -/
def targetUserId (r : TriggerRow) : Option Nat :=
  (r.student_id.orElse fun _ => r.owner_id).orElse fun _ => r.user_id

/-- The field names the `COALESCE` expression of `update_leaderboard`
references on the `NEW` record, in source order. -/
def coalesceNewFields : List String := ["student_id", "owner_id", "user_id"]

/-- plpgsql resolution of the `NEW` record fields referenced by the
`COALESCE` expression, against the row type of the table the trigger is
attached to: every referenced field must exist; the first missing one
raises `record "new" has no field ...`. -/
def newFieldCheck (t : Table) : Except SqlError Unit :=
  match coalesceNewFields.find? (fun f => decide (¬ f ∈ tableColumns t)) with
  | some f => .error (.recordFieldMissing "new" f)
  | none => .ok ()

/-- The `NEW` record for a `quiz_attempts` row. -/
def rowOfQuizAttempt (qa : QuizAttempt) : TriggerRow :=
  { student_id := some qa.student_id, owner_id := none, user_id := none }

/-- The `NEW` record for an `assignments` row. -/
def rowOfAssignment (a : Assignment) : TriggerRow :=
  { student_id := some a.student_id, owner_id := none, user_id := none }

/-- The `NEW` record for a `projects` row. -/
def rowOfProject (p : Project) : TriggerRow :=
  { student_id := none, owner_id := some p.owner_id, user_id := none }

/-- The body of the `update_leaderboard()` trigger function
(`supabase.sql` lines 291-343), faithful execution semantics, in the
source's statement order: the `COALESCE` assignment first (whose `NEW`
field resolution fails for every attached table), then the four
subtotal calls (the first of which raises 42883), the upsert, and the
rank statement (whose bare `total_points` is ambiguous with this
function's variable, 42702).  It acts on the post-write database state,
since the triggers are `AFTER` triggers; an error aborts the whole
triggering statement, so the later stages are written out but
unreachable.  (A `NEW` row with none of the three owner values cannot
arise from the three source tables; that dead branch returns the state
unchanged.) -/
def update_leaderboard (db : DB) (t : Table) (new : TriggerRow) (now : Nat) :
    Except SqlError DB :=
  match newFieldCheck t with
  | .error e => .error e
  | .ok _ =>
    match targetUserId new with
    | none => .ok db
    | some uid =>
      match calculate_quiz_points db uid with
      | .error e => .error e
      | .ok quiz_points =>
        match calculate_assignment_points db uid with
        | .error e => .error e
        | .ok assignment_points =>
          let project_points := calculate_project_points db uid
          let challenge_points := calculate_challenge_points db uid
          let total_points := quiz_points + assignment_points + project_points + challenge_points
          if nameAmbiguous (tableColumns .leaderboard) update_leaderboard_vars "total_points" then
            .error (.ambiguousColumn "total_points")
          else
            let entry : LeaderboardEntry :=
              { user_id := uid, total_points := total_points,
                breakdown := { quizzes := quiz_points, assignments := assignment_points,
                               projects := project_points, challenges := challenge_points },
                rank := none, updated_at := now }
            .ok { db with leaderboard := assignRanks (upsertLeaderboard db.leaderboard entry) }

/-- Run the after-row triggers attached to `t` for a freshly written
row; a raising trigger aborts the whole write. -/
def runAfterWriteTriggers (db : DB) (t : Table) (new : TriggerRow) (now : Nat) :
    Except SqlError DB :=
  if firesLeaderboardRecompute t then update_leaderboard db t new now else .ok db

/-- An `INSERT INTO quiz_attempts` followed by its after-insert
triggers; an `.error` result means the insert was rolled back. -/
def insertQuizAttempt (db : DB) (qa : QuizAttempt) (now : Nat) : Except SqlError DB :=
  runAfterWriteTriggers { db with quiz_attempts := db.quiz_attempts ++ [qa] }
    .quiz_attempts (rowOfQuizAttempt qa) now

/-- An `INSERT INTO assignments` followed by its after-insert triggers;
an `.error` result means the insert was rolled back. -/
def insertAssignment (db : DB) (a : Assignment) (now : Nat) : Except SqlError DB :=
  runAfterWriteTriggers { db with assignments := db.assignments ++ [a] }
    .assignments (rowOfAssignment a) now

/-- An `INSERT INTO projects` followed by its after-insert triggers; an
`.error` result means the insert was rolled back. -/
def insertProject (db : DB) (p : Project) (now : Nat) : Except SqlError DB :=
  runAfterWriteTriggers { db with projects := db.projects ++ [p] }
    .projects (rowOfProject p) now

/-- An `UPDATE` of one `projects` row (e.g. a mentor setting
`verified = true`) followed by the after-update triggers; an `.error`
result means the update was rolled back. -/
def updateProject (db : DB) (p : Project) (now : Nat) : Except SqlError DB :=
  runAfterWriteTriggers
    { db with projects := db.projects.map (fun q => if q.id = p.id then p else q) }
    .projects (rowOfProject p) now

/-- Deleting a `users` row with every `ON DELETE CASCADE` declared in
`supabase.sql`: the user's projects (`owner_id`), assignments
(`student_id`), quizzes (`created_by`), quiz attempts (their own
`student_id`, or transitively via a cascaded quiz), and the user's
`leaderboard` row (`leaderboard.user_id REFERENCES users(id) ON DELETE CASCADE`). -/
def deleteUser (db : DB) (uid : Nat) : DB :=
  let deadQuizIds := (db.quizzes.filter (fun q => decide (q.created_by = uid))).map Quiz.id
  { users := db.users.filter (fun u => decide (¬ u.id = uid))
    projects := db.projects.filter (fun p => decide (¬ p.owner_id = uid))
    assignments := db.assignments.filter (fun a => decide (¬ a.student_id = uid))
    quizzes := db.quizzes.filter (fun q => decide (¬ q.created_by = uid))
    quiz_attempts := db.quiz_attempts.filter
      (fun qa => decide (¬ (qa.student_id = uid ∨ qa.quiz_id ∈ deadQuizIds)))
    leaderboard := db.leaderboard.filter (fun e => decide (¬ e.user_id = uid)) }

/-! ### Access control on the `leaderboard` table

Row-level security is enabled on `leaderboard` (`supabase.sql` line 487)
and four policies are declared (lines 655-667): SELECT `USING (true)`,
and for UPDATE `USING (false)`, INSERT `WITH CHECK (false)`, DELETE
`USING (false)`.  A policy applies to every role that does not bypass
RLS (the table owner and `BYPASSRLS` roles are exempt; Supabase client
roles `anon`/`authenticated` are not).  A plpgsql function runs its DML
as the invoking role unless it is declared `SECURITY DEFINER`; none of
the leaderboard functions in `supabase.sql` carries that marker. -/

/-- The DML statement kinds RLS policies distinguish. -/
inductive DmlOp where
  | selectOp
  | insertOp
  | updateOp
  | deleteOp
deriving DecidableEq, Repr

/-- The four `leaderboard` policies of `supabase.sql` lines 655-667,
as the per-operation policy verdict. -/
def leaderboardPolicyAllows : DmlOp → Bool
  | .selectOp => true
  | .insertOp => false
  | .updateOp => false
  | .deleteOp => false

/-- Execution context of a DML statement: whether the executing role is
exempt from RLS (table owner or `BYPASSRLS`). -/
structure ExecCtx where
  bypassesRLS : Bool
deriving DecidableEq, Repr

/-- `update_leaderboard` and `refresh_user_leaderboard` are declared
plainly (`LANGUAGE plpgsql`, no `SECURITY DEFINER` clause). -/
def leaderboardFunctionsAreSecurityDefiner : Bool := false

/-- The context in which the trigger function's own DML runs, given the
context of the triggering statement: unchanged, unless the function
were `SECURITY DEFINER` (owned by the table owner). -/
def triggerExecCtx (invoker : ExecCtx) : ExecCtx :=
  if leaderboardFunctionsAreSecurityDefiner then { bypassesRLS := true } else invoker

/-- Whether a DML statement against `leaderboard` passes the
access-control boundary. -/
def leaderboardDmlAllowed (ctx : ExecCtx) (op : DmlOp) : Bool :=
  ctx.bypassesRLS || leaderboardPolicyAllows op

/-- A Supabase client session (`anon` or `authenticated`): subject to RLS. -/
def clientCtx : ExecCtx := { bypassesRLS := false }

/-! ### AI call wrapper

Modelled from the spec: `callAI` / `gradeQuizAnswers` live in
`src/lib/geminiClient.js`, which the packaged sources reference (the
AI-features document describes "Retry logic with exponential backoff
(3 attempts)", "1 second delay between API calls", "30-second timeout
per request", and "Falls back to basic scoring if AI grading fails")
but whose code is not included under `src/`.  The definitions below
follow the spec's description of that module. -/

/-- Modelled from the spec: the ways one attempt can fail (timeout,
non-2xx response, malformed payload). -/
inductive AttemptFailure where
  | timeout
  | httpStatus (code : Nat)
  | malformedPayload
deriving DecidableEq, Repr

/-- Modelled from the spec: the typed failure the caller receives after
the attempt budget is exhausted, distinguishable from a raw transport
error. -/
inductive AIError where
  | exhausted (attempts : Nat) (last : AttemptFailure)
deriving DecidableEq, Repr

/-- Modelled from the spec: at most 3 total attempts. -/
def maxAIAttempts : Nat := 3

/-- Modelled from the spec: 1-second base delay, doubled before each retry. -/
def backoffBeforeRetry (attemptIdx : Nat) : Nat := 1000 * 2 ^ attemptIdx

/-- Modelled from the spec: result of a `callAI` invocation, with the
number of attempts made and the backoff waits inserted between them. -/
structure CallOutcome (α : Type) where
  result : Except AIError α
  attemptsMade : Nat
  waits : List Nat

/-- Modelled from the spec: the retry loop.  `attemptIdx` is the 0-based
index of the current attempt, `remaining` the number of retries still
allowed after it. -/
def callAIGo (provider : Nat → Except AttemptFailure α) : Nat → Nat → CallOutcome α
  | attemptIdx, remaining =>
    match provider attemptIdx with
    | .ok v => { result := .ok v, attemptsMade := attemptIdx + 1, waits := [] }
    | .error f =>
      match remaining with
      | 0 => { result := .error (.exhausted (attemptIdx + 1) f), attemptsMade := attemptIdx + 1, waits := [] }
      | r + 1 =>
        let rest := callAIGo provider (attemptIdx + 1) r
        { rest with waits := backoffBeforeRetry attemptIdx :: rest.waits }

/-- Modelled from the spec: `callAI` runs up to `maxAIAttempts` total
attempts against the provider, with exponential backoff between
consecutive attempts, and reports a typed failure once the budget is
exhausted. -/
def callAI (provider : Nat → Except AttemptFailure α) : CallOutcome α :=
  callAIGo provider 0 (maxAIAttempts - 1)

/-- The deterministic non-AI score: the count of submitted answers
matching the correct index at the same position.  (This is also the
spec-level reading of the quiz-points subquery, used as the comparison
point for the `calculate_quiz_points` refinement.) -/
def correctCountSpec (answers : List Int) (questions : List Question) : Nat :=
  (answers.zip questions).countP quizZipP

/-- Modelled from the spec: the grading result shape
`{attempt, aiGrading?, basicScore, correctAnswers, totalQuestions}`
(the attempt record itself is orthogonal to the claims). -/
structure GradingOutcome (α : Type) where
  aiGrading : Option α
  basicScore : Nat
  correctAnswers : Nat
  totalQuestions : Nat

/-- Modelled from the spec: grading calls the AI wrapper; when the
wrapper reports failure the caller falls back to the deterministic
basic score instead of surfacing the error. -/
def gradeQuizAnswers (provider : Nat → Except AttemptFailure α)
    (answers : List Int) (questions : List Question) : GradingOutcome α :=
  let c := callAI provider
  let score := correctCountSpec answers questions
  match c.result with
  | .ok g =>
      { aiGrading := some g, basicScore := score, correctAnswers := score,
        totalQuestions := questions.length }
  | .error _ =>
      { aiGrading := none, basicScore := score, correctAnswers := score,
        totalQuestions := questions.length }

/-- A provider that always times out. -/
def timeoutProvider : Nat → Except AttemptFailure Unit := fun _ => .error .timeout

/-- Every stored column of a leaderboard row except `updated_at` (which
the upsert always sets to the call time `NOW()`). -/
def entryCore (e : LeaderboardEntry) : Nat × Int × Breakdown × Option Nat :=
  (e.user_id, e.total_points, e.breakdown, e.rank)

/-- The columns of a leaderboard row that are a pure function of the
source tables: everything except `updated_at` (set to `NOW()` each run)
and `rank` (whose tie order `ROW_NUMBER` leaves unspecified). -/
def entryDurable (e : LeaderboardEntry) : Nat × Int × Breakdown :=
  (e.user_id, e.total_points, e.breakdown)

/-- The breakdown/total consistency invariant of a leaderboard row. -/
def breakdownConsistent (e : LeaderboardEntry) : Prop :=
  e.total_points = e.breakdown.quizzes + e.breakdown.assignments
      + e.breakdown.projects + e.breakdown.challenges
    ∧ 0 ≤ e.breakdown.quizzes ∧ 0 ≤ e.breakdown.assignments
    ∧ 0 ≤ e.breakdown.projects ∧ 0 ≤ e.breakdown.challenges

instance (e : LeaderboardEntry) : Decidable (breakdownConsistent e) := by
  unfold breakdownConsistent
  infer_instance

/-- The quiz subtotal in the words of the spec: for each of the user's
attempts whose `completed_at` is non-null, look the attempt's quiz up
by id and award 1 point per position whose submitted answer equals that
question's stored `correctIndex`; in-progress attempts contribute
nothing.  This definition follows the spec's sentences and is compared
against the source-embedded `calculate_quiz_points`. -/
def quizPointsSpec (db : DB) (sid : Nat) : Int :=
  ((db.quiz_attempts.filter (fun qa => decide (qa.student_id = sid ∧ qa.completed_at.isSome))).map
    (fun qa =>
      match db.quizzes.find? (fun q => decide (qa.quiz_id = q.id)) with
      | some q => (correctCountSpec qa.answers q.questions : Int)
      | none => 0)).sum

/-! ### Concrete states used by the counterexamples and examples -/

/-- A question whose only claim-relevant field is `correctIndex`. -/
def mkQuestion (ci : Int) : Question :=
  { question := "q", options := ["a", "b", "c", "d"], correctIndex := ci, explanation := "e" }

/-- One student owning a single verified project tagged `challenge`. -/
def challengeOnlyDB : DB :=
  { users := [{ id := 1, role := .student }]
    projects := [{ id := 5, owner_id := 1, tags := ["challenge"], verified := true }]
    assignments := []
    quizzes := []
    quiz_attempts := []
    leaderboard := [] }

/-- A state with no users and no source records. -/
def emptyDB : DB :=
  { users := [], projects := [], assignments := [], quizzes := [],
    quiz_attempts := [], leaderboard := [] }

/-- The spec's worked example: one completed attempt with 8 of 10
answers correct, one assignment with a submission, one verified
non-challenge project, all owned by user 1. -/
def exampleDB : DB :=
  { users := [{ id := 1, role := .student }, { id := 2, role := .mentor }]
    projects := [{ id := 20, owner_id := 1, tags := ["web"], verified := true }]
    assignments := [{ id := 30, student_id := 1, submission_url := some "https" }]
    quizzes := [{ id := 10, created_by := 2,
                  questions := [mkQuestion 0, mkQuestion 1, mkQuestion 2, mkQuestion 3,
                                mkQuestion 0, mkQuestion 1, mkQuestion 2, mkQuestion 3,
                                mkQuestion 0, mkQuestion 1] }]
    quiz_attempts := [{ id := 40, quiz_id := 10, student_id := 1,
                        answers := [0, 1, 2, 3, 0, 1, 2, 3, 1, 0],
                        completed_at := some 100 }]
    leaderboard := [] }

/-- Four students; user 1 has 15 submitted assignments (recomputing to
300 points), and users 2, 3, 4 hold stored leaderboard rows with totals
200, 200 and 100. -/
def rankDB : DB :=
  { users := [{ id := 1, role := .student }, { id := 2, role := .student },
              { id := 3, role := .student }, { id := 4, role := .student }]
    projects := []
    assignments := (List.range 15).map
      (fun i => { id := 100 + i, student_id := 1, submission_url := some "u" })
    quizzes := []
    quiz_attempts := []
    leaderboard :=
      [{ user_id := 2, total_points := 200,
         breakdown := { quizzes := 0, assignments := 200, projects := 0, challenges := 0 },
         rank := some 1, updated_at := 0 },
       { user_id := 3, total_points := 200,
         breakdown := { quizzes := 0, assignments := 200, projects := 0, challenges := 0 },
         rank := some 2, updated_at := 0 },
       { user_id := 4, total_points := 100,
         breakdown := { quizzes := 0, assignments := 100, projects := 0, challenges := 0 },
         rank := some 3, updated_at := 0 }] }

/-- One mentor who still holds a leaderboard row (no student users). -/
def mentorLbDB : DB :=
  { users := [{ id := 1, role := .mentor }]
    projects := []
    assignments := []
    quizzes := []
    quiz_attempts := []
    leaderboard :=
      [{ user_id := 1, total_points := 50,
         breakdown := { quizzes := 50, assignments := 0, projects := 0, challenges := 0 },
         rank := some 1, updated_at := 0 }] }

/-! ### Helper lemmas about the SQL combinators -/

theorem crossJoin_nil (xs : List α) : crossJoin xs ([] : List β) = [] := by
  induction xs with
  | nil => rfl
  | cons x xs ih => simp [crossJoin, ih]

theorem ordFrom_snd_ge (n : Nat) (l : List α) : ∀ p ∈ ordFrom n l, n ≤ p.2 := by
  induction l generalizing n with
  | nil => intro p hp; cases hp
  | cons a as ih =>
    intro p hp
    rcases List.mem_cons.mp hp with h | h
    · subst h; exact le_refl n
    · exact le_trans (Nat.le_succ n) (ih (n + 1) p h)

theorem countP_crossJoin_cons (xs : List α) (y : β) (ys : List β) (p : α × β → Bool) :
    (crossJoin xs (y :: ys)).countP p
      = xs.countP (fun x => p (x, y)) + (crossJoin xs ys).countP p := by
  induction xs with
  | nil => rfl
  | cons x xs ih =>
    simp only [crossJoin, List.countP_append, List.countP_map, List.countP_cons, ih]
    by_cases h : p (x, y) = true <;> simp [h, Function.comp] <;> omega

theorem countP_crossJoin_ord_eq_zip (n : Nat) (as : List Int) (qs : List Question) :
    (crossJoin (ordFrom n as) (ordFrom n qs)).countP quizJoinP
      = (as.zip qs).countP quizZipP := by
  induction as generalizing n qs with
  | nil => simp [ordFrom, crossJoin]
  | cons a as ih =>
    cases qs with
    | nil => simp [ordFrom, crossJoin_nil]
    | cons q qs =>
      have hheadrow : (ordFrom (n + 1) qs).countP (quizJoinP ∘ fun y => ((a, n), y)) = 0 := by
        refine List.countP_eq_zero.mpr ?_
        intro y hy
        have hge := ordFrom_snd_ge (n + 1) qs y hy
        simp only [Function.comp_apply, quizJoinP, decide_eq_true_eq, not_and]
        intro he
        omega
      have htailcol : (ordFrom (n + 1) as).countP (fun x => quizJoinP (x, (q, n))) = 0 := by
        refine List.countP_eq_zero.mpr ?_
        intro x hx
        have hge := ordFrom_snd_ge (n + 1) as x hx
        simp only [quizJoinP, decide_eq_true_eq, not_and]
        intro he
        omega
      have hif : quizJoinP ((a, n), (q, n)) = quizZipP (a, q) := by
        simp [quizJoinP, quizZipP]
      have e1 : crossJoin (ordFrom n (a :: as)) (ordFrom n (q :: qs))
          = ((q, n) :: ordFrom (n + 1) qs).map (fun y => ((a, n), y))
            ++ crossJoin (ordFrom (n + 1) as) ((q, n) :: ordFrom (n + 1) qs) := rfl
      rw [e1, List.countP_append, List.countP_map, List.countP_cons,
        countP_crossJoin_cons, ih (n + 1) qs, hheadrow, htailcol]
      have e2 : (a :: as).zip (q :: qs) = (a, q) :: as.zip qs := rfl
      rw [e2, List.countP_cons]
      have e3 : (quizJoinP ∘ fun y => ((a, n), y)) (q, n) = quizZipP (a, q) := hif
      rw [e3]
      omega

theorem correctAnswerCount_eq_spec (answers : List Int) (questions : List Question) :
    correctAnswerCount answers questions = correctCountSpec answers questions :=
  countP_crossJoin_ord_eq_zip 1 answers questions

theorem sum_crossJoin_filter (xs : List α) (ys : List β) (P : α × β → Bool)
    (f : α × β → Int) :
    (((crossJoin xs ys).filter P).map f).sum
      = (xs.map (fun x => ((ys.filter (fun y => P (x, y))).map (fun y => f (x, y))).sum)).sum := by
  induction xs with
  | nil => rfl
  | cons x xs ih =>
    simp only [crossJoin, List.filter_append, List.map_append, List.sum_append, ih,
      List.filter_map, List.map_map, List.map_cons, List.sum_cons]
    rfl

theorem filter_id_eq_find (qs : List Quiz) (c : Nat) (h : (qs.map Quiz.id).Nodup) :
    qs.filter (fun q => decide (c = q.id))
      = match qs.find? (fun q => decide (c = q.id)) with
        | some q => [q]
        | none => [] := by
  induction qs with
  | nil => rfl
  | cons q qs ih =>
    simp only [List.map_cons, List.nodup_cons] at h
    by_cases hc : c = q.id
    · have hrest : qs.filter (fun q' => decide (c = q'.id)) = [] := by
        refine List.filter_eq_nil_iff.mpr ?_
        intro q' hq'
        simp only [decide_eq_true_eq]
        intro he
        have hmem : q'.id ∈ qs.map Quiz.id := List.mem_map_of_mem Quiz.id hq'
        rw [← he, hc] at hmem
        exact h.1 hmem
      have hd : (decide (c = q.id)) = true := by simp [hc]
      simp [List.filter_cons, List.find?_cons, hd, hrest]
    · have hd : (decide (c = q.id)) = false := by simp [hc]
      simp only [List.filter_cons, List.find?_cons, hd, Bool.false_eq_true, if_false,
        cond_false]
      exact ih h.2

theorem sum_map_eq_sum_filter_map (l : List γ) (p : γ → Bool) (f g : γ → Int)
    (h1 : ∀ x ∈ l, p x = true → f x = g x) (h2 : ∀ x ∈ l, p x = false → f x = 0) :
    (l.map f).sum = ((l.filter p).map g).sum := by
  induction l with
  | nil => rfl
  | cons x l ih =>
    have hih := ih (fun y hy => h1 y (List.mem_cons_of_mem x hy))
      (fun y hy => h2 y (List.mem_cons_of_mem x hy))
    by_cases hx : p x = true
    · simp [List.filter_cons, hx, h1 x (List.mem_cons_self x l) hx, hih]
    · have hx' : p x = false := by simpa using hx
      simp [List.filter_cons, hx', h2 x (List.mem_cons_self x l) hx', hih]

/-! ### Upsert and ranking lemmas -/

theorem assignRanks_eq_map (lb : List LeaderboardEntry) :
    assignRanks lb
      = lb.map (fun e =>
          { e with rank := some (rankOf (lb.insertionSort byPointsDesc) e.user_id) }) := rfl

theorem mem_upsert_self (lb : List LeaderboardEntry) (e : LeaderboardEntry) :
    ∃ x ∈ upsertLeaderboard lb e,
      x.user_id = e.user_id ∧ x.total_points = e.total_points ∧
      x.breakdown = e.breakdown ∧ x.updated_at = e.updated_at := by
  by_cases hany : lb.any (fun x => decide (x.user_id = e.user_id)) = true
  · obtain ⟨y, hy, hyu⟩ := List.any_eq_true.mp hany
    simp only [decide_eq_true_eq] at hyu
    have hmem : { y with total_points := e.total_points, breakdown := e.breakdown, updated_at := e.updated_at } ∈ upsertLeaderboard lb e := by
      simp only [upsertLeaderboard, hany, if_true]
      exact List.mem_map.mpr ⟨y, hy, by simp [hyu]⟩
    exact ⟨_, hmem, hyu, rfl, rfl, rfl⟩
  · refine ⟨e, ?_, rfl, rfl, rfl, rfl⟩
    simp [upsertLeaderboard, hany]

theorem upsert_uid_fields (lb : List LeaderboardEntry) (e : LeaderboardEntry) :
    ∀ x ∈ upsertLeaderboard lb e, x.user_id = e.user_id →
      x.total_points = e.total_points ∧ x.breakdown = e.breakdown ∧
      x.updated_at = e.updated_at := by
  intro x hx hxu
  by_cases hany : lb.any (fun x => decide (x.user_id = e.user_id)) = true
  · simp only [upsertLeaderboard, hany, if_true] at hx
    obtain ⟨y, hy, hyx⟩ := List.mem_map.mp hx
    by_cases hyu : y.user_id = e.user_id
    · rw [if_pos hyu] at hyx
      rw [← hyx]
      exact ⟨rfl, rfl, rfl⟩
    · rw [if_neg hyu] at hyx
      rw [← hyx] at hxu
      exact absurd hxu hyu
  · simp only [upsertLeaderboard, hany, if_false, Bool.false_eq_true] at hx
    rcases List.mem_append.mp hx with hmem | hmem
    · exfalso
      have hall := List.any_eq_false.mp (Bool.eq_false_iff.mpr hany)
      have := hall x hmem
      simp [hxu] at this
    · rcases List.mem_singleton.mp hmem with rfl
      exact ⟨rfl, rfl, rfl⟩

theorem mem_assignRanks (lb : List LeaderboardEntry) :
    ∀ y ∈ assignRanks lb, ∃ x ∈ lb,
      y.user_id = x.user_id ∧ y.total_points = x.total_points ∧
      y.breakdown = x.breakdown ∧ y.updated_at = x.updated_at := by
  intro y hy
  obtain ⟨x, hx, hxy⟩ := List.mem_map.mp hy
  exact ⟨x, hx, by rw [← hxy]; exact ⟨rfl, rfl, rfl, rfl⟩⟩

theorem assignRanks_mem_of_mem (lb : List LeaderboardEntry) :
    ∀ x ∈ lb, ∃ y ∈ assignRanks lb,
      y.user_id = x.user_id ∧ y.total_points = x.total_points ∧
      y.breakdown = x.breakdown ∧ y.updated_at = x.updated_at := by
  intro x hx
  exact ⟨_, List.mem_map_of_mem _ hx, rfl, rfl, rfl, rfl⟩

theorem orderedInsert_map (f : LeaderboardEntry → LeaderboardEntry)
    (hf : ∀ a, (f a).total_points = a.total_points)
    (x : LeaderboardEntry) (l : List LeaderboardEntry) :
    (l.map f).orderedInsert byPointsDesc (f x) = (l.orderedInsert byPointsDesc x).map f := by
  induction l with
  | nil => rfl
  | cons b t ih =>
    by_cases h : byPointsDesc x b
    · have h' : byPointsDesc (f x) (f b) := by
        unfold byPointsDesc at h ⊢
        rw [hf, hf]
        exact h
      simp [List.orderedInsert, h, h']
    · have h' : ¬ byPointsDesc (f x) (f b) := by
        unfold byPointsDesc at h ⊢
        rw [hf, hf]
        exact h
      simp [List.orderedInsert, h, h', ih]

theorem insertionSort_map (f : LeaderboardEntry → LeaderboardEntry)
    (hf : ∀ a, (f a).total_points = a.total_points) (l : List LeaderboardEntry) :
    (l.map f).insertionSort byPointsDesc = (l.insertionSort byPointsDesc).map f := by
  induction l with
  | nil => rfl
  | cons b t ih =>
    simp only [List.map_cons, List.insertionSort, ih]
    exact orderedInsert_map f hf b (t.insertionSort byPointsDesc)

theorem findIdx_map (f : α → β) (l : List α) (p : β → Bool) :
    (l.map f).findIdx p = l.findIdx (fun x => p (f x)) := by
  induction l with
  | nil => rfl
  | cons b t ih => simp [List.findIdx_cons, ih]

theorem rankOf_sort_map (f : LeaderboardEntry → LeaderboardEntry)
    (hfu : ∀ a, (f a).user_id = a.user_id)
    (hft : ∀ a, (f a).total_points = a.total_points)
    (l : List LeaderboardEntry) (uid : Nat) :
    rankOf ((l.map f).insertionSort byPointsDesc) uid
      = rankOf (l.insertionSort byPointsDesc) uid := by
  unfold rankOf
  rw [insertionSort_map f hft, findIdx_map]
  have hp : (fun x => decide ((f x).user_id = uid)) = (fun x : LeaderboardEntry => decide (x.user_id = uid)) := by
    funext x
    rw [hfu]
  rw [hp]

theorem assignRanks_map_core (f : LeaderboardEntry → LeaderboardEntry)
    (hfu : ∀ a, (f a).user_id = a.user_id)
    (hft : ∀ a, (f a).total_points = a.total_points)
    (hfb : ∀ a, (f a).breakdown = a.breakdown)
    (l : List LeaderboardEntry) :
    (assignRanks (l.map f)).map entryCore = (assignRanks l).map entryCore := by
  rw [assignRanks_eq_map, assignRanks_eq_map]
  simp only [List.map_map]
  refine List.map_congr_left ?_
  intro x _
  simp only [Function.comp_apply, entryCore]
  rw [hfu, hft, hfb, rankOf_sort_map f hfu hft]

theorem upsert_of_any_true (lb : List LeaderboardEntry) (e : LeaderboardEntry)
    (h : lb.any (fun x => decide (x.user_id = e.user_id)) = true) :
    upsertLeaderboard lb e
      = lb.map (fun x =>
          if x.user_id = e.user_id then
            { x with total_points := e.total_points, breakdown := e.breakdown,
                     updated_at := e.updated_at }
          else x) := by
  simp only [upsertLeaderboard, h, if_true]

theorem assignRanks_core_idem (L : List LeaderboardEntry) :
    (assignRanks (assignRanks L)).map entryCore = (assignRanks L).map entryCore := by
  conv_lhs => rw [assignRanks_eq_map L]
  exact assignRanks_map_core
    (fun e => { e with rank := some (rankOf (L.insertionSort byPointsDesc) e.user_id) })
    (fun a => rfl) (fun a => rfl) (fun a => rfl) L

theorem refresh_twice_core (lb : List LeaderboardEntry) (e1 e2 : LeaderboardEntry)
    (hu : e2.user_id = e1.user_id) (ht : e2.total_points = e1.total_points)
    (hb : e2.breakdown = e1.breakdown) :
    (assignRanks (upsertLeaderboard (assignRanks (upsertLeaderboard lb e1)) e2)).map entryCore
      = (assignRanks (upsertLeaderboard lb e1)).map entryCore := by
  have hany : (assignRanks (upsertLeaderboard lb e1)).any
      (fun x => decide (x.user_id = e2.user_id)) = true := by
    obtain ⟨w, hw, hwu, _, _, _⟩ := mem_upsert_self lb e1
    obtain ⟨y, hy, hyu, _, _, _⟩ := assignRanks_mem_of_mem _ w hw
    exact List.any_eq_true.mpr ⟨y, hy, by simp [hyu, hwu, hu]⟩
  have hmap : upsertLeaderboard (assignRanks (upsertLeaderboard lb e1)) e2
      = (assignRanks (upsertLeaderboard lb e1)).map
          (fun x => if x.user_id = e1.user_id then { x with updated_at := e2.updated_at } else x) := by
    rw [upsert_of_any_true _ _ hany]
    refine List.map_congr_left ?_
    intro x hx
    by_cases hxu : x.user_id = e1.user_id
    · have hxu2 : x.user_id = e2.user_id := by rw [hxu, hu]
      rw [if_pos hxu2, if_pos hxu]
      obtain ⟨w', hw', hwu', htp', hbk', _⟩ := mem_assignRanks _ x hx
      have hw'u : w'.user_id = e1.user_id := by rw [← hwu']; exact hxu
      obtain ⟨htp, hbk, _⟩ := upsert_uid_fields lb e1 w' hw' hw'u
      have h1 : e2.total_points = x.total_points := by rw [ht, ← htp, ← htp']
      have h2 : e2.breakdown = x.breakdown := by rw [hb, ← hbk, ← hbk']
      rw [h1, h2]
    · have hxu2 : ¬ x.user_id = e2.user_id := by rw [hu]; exact hxu
      rw [if_neg hxu2, if_neg hxu]
  rw [hmap,
    assignRanks_map_core _ (fun a => by by_cases hc : a.user_id = e1.user_id <;> simp [hc])
      (fun a => by by_cases hc : a.user_id = e1.user_id <;> simp [hc])
      (fun a => by by_cases hc : a.user_id = e1.user_id <;> simp [hc])]
  exact assignRanks_core_idem (upsertLeaderboard lb e1)

theorem ranks_positions (s : List LeaderboardEntry)
    (h : (s.map LeaderboardEntry.user_id).Nodup) :
    ∀ k : Nat,
      s.map (fun x => k + s.findIdx (fun y => decide (y.user_id = x.user_id)))
        = List.range' k s.length := by
  induction s with
  | nil => intro k; rfl
  | cons a t ih =>
    intro k
    have hnd : a.user_id ∉ t.map LeaderboardEntry.user_id
        ∧ (t.map LeaderboardEntry.user_id).Nodup := by
      simpa [List.nodup_cons] using h
    have hhead : (a :: t).findIdx (fun y => decide (y.user_id = a.user_id)) = 0 := by
      simp [List.findIdx_cons]
    have htail : t.map (fun x => k + (a :: t).findIdx (fun y => decide (y.user_id = x.user_id)))
        = t.map (fun x => (k + 1) + t.findIdx (fun y => decide (y.user_id = x.user_id))) := by
      refine List.map_congr_left ?_
      intro x hx
      have hne : ¬ a.user_id = x.user_id := by
        intro he
        exact hnd.1 (he ▸ List.mem_map_of_mem LeaderboardEntry.user_id hx)
      simp only [List.findIdx_cons, hne, decide_False, cond_false]
      omega
    simp only [List.map_cons, hhead, htail, ih hnd.2 (k + 1), List.length_cons]
    rw [List.range'_succ]
    simp

theorem findIdx_get_self (s : List LeaderboardEntry)
    (h : (s.map LeaderboardEntry.user_id).Nodup)
    (x : LeaderboardEntry) (hx : x ∈ s) :
    ∃ hlt : s.findIdx (fun y => decide (y.user_id = x.user_id)) < s.length,
      s.get ⟨s.findIdx (fun y => decide (y.user_id = x.user_id)), hlt⟩ = x := by
  induction s with
  | nil => cases hx
  | cons a t ih =>
    have hnd : a.user_id ∉ t.map LeaderboardEntry.user_id
        ∧ (t.map LeaderboardEntry.user_id).Nodup := by
      simpa [List.nodup_cons] using h
    by_cases hax : a.user_id = x.user_id
    · have hxa : x = a := by
        rcases List.mem_cons.mp hx with rfl | hxt
        · rfl
        · exact absurd (by rw [hax]; exact List.mem_map_of_mem LeaderboardEntry.user_id hxt) hnd.1
      subst hxa
      have hfi : (x :: t).findIdx (fun y => decide (y.user_id = x.user_id)) = 0 := by
        simp [List.findIdx_cons]
      refine ⟨by rw [hfi]; simp, ?_⟩
      simp [hfi]
    · have hxt : x ∈ t := by
        rcases List.mem_cons.mp hx with rfl | hxt
        · exact absurd rfl hax
        · exact hxt
      obtain ⟨hlt, hget⟩ := ih hnd.2 hxt
      have hfi : (a :: t).findIdx (fun y => decide (y.user_id = x.user_id))
          = t.findIdx (fun y => decide (y.user_id = x.user_id)) + 1 := by
        simp [List.findIdx_cons, hax]
      refine ⟨by rw [hfi]; simpa using Nat.succ_lt_succ hlt, ?_⟩
      simp only [hfi, List.get_eq_getElem, List.getElem_cons_succ]
      simpa [List.get_eq_getElem] using hget

theorem upsert_ids_nodup (lb : List LeaderboardEntry) (e : LeaderboardEntry)
    (h : (lb.map LeaderboardEntry.user_id).Nodup) :
    ((upsertLeaderboard lb e).map LeaderboardEntry.user_id).Nodup := by
  by_cases hany : lb.any (fun x => decide (x.user_id = e.user_id)) = true
  · rw [upsert_of_any_true lb e hany, List.map_map]
    have : (LeaderboardEntry.user_id ∘ fun x =>
        if x.user_id = e.user_id then
          { x with total_points := e.total_points, breakdown := e.breakdown,
                   updated_at := e.updated_at }
        else x) = LeaderboardEntry.user_id := by
      funext x
      by_cases hc : x.user_id = e.user_id <;> simp [hc]
    rw [this]
    exact h
  · simp only [upsertLeaderboard, hany, if_false, Bool.false_eq_true]
    rw [List.map_append]
    have hnotin : e.user_id ∉ lb.map LeaderboardEntry.user_id := by
      intro hmem
      obtain ⟨y, hy, hyu⟩ := List.mem_map.mp hmem
      have hall := List.any_eq_false.mp (Bool.eq_false_iff.mpr hany)
      have := hall y hy
      simp [hyu] at this
    simp [List.nodup_append, h, hnotin, List.disjoint_singleton]

theorem assignRanks_rank_facts (L : List LeaderboardEntry)
    (h : (L.map LeaderboardEntry.user_id).Nodup) :
    ((assignRanks L).map (fun e => e.rank)).Perm
        ((List.range' 1 (assignRanks L).length).map some) ∧
    (∀ e ∈ assignRanks L, ∀ e' ∈ assignRanks L, e'.total_points < e.total_points →
      ∃ k k', e.rank = some k ∧ e'.rank = some k' ∧ k < k') := by
  have hperm : (L.insertionSort byPointsDesc).Perm L := List.perm_insertionSort byPointsDesc L
  have hsnd : ((L.insertionSort byPointsDesc).map LeaderboardEntry.user_id).Nodup :=
    ((hperm.map LeaderboardEntry.user_id).nodup_iff).mpr h
  constructor
  · have h1 : (assignRanks L).map (fun e => e.rank)
        = (L.map (fun x => rankOf (L.insertionSort byPointsDesc) x.user_id)).map some := by
      rw [assignRanks_eq_map]
      simp only [List.map_map]
      rfl
    have h3 : (L.map (fun x => rankOf (L.insertionSort byPointsDesc) x.user_id)).Perm
        ((L.insertionSort byPointsDesc).map
          (fun x => rankOf (L.insertionSort byPointsDesc) x.user_id)) :=
      (hperm.symm).map _
    have h4 : (L.insertionSort byPointsDesc).map
        (fun x => rankOf (L.insertionSort byPointsDesc) x.user_id)
        = List.range' 1 (L.insertionSort byPointsDesc).length :=
      ranks_positions (L.insertionSort byPointsDesc) hsnd 1
    have hlen : (assignRanks L).length = (L.insertionSort byPointsDesc).length := by
      rw [assignRanks_eq_map, List.length_map, hperm.length_eq]
    rw [h1, hlen, ← h4]
    exact h3.map some
  · intro e he e' he' hlt
    obtain ⟨x, hxL, hxe⟩ := List.mem_map.mp he
    obtain ⟨x', hxL', hxe'⟩ := List.mem_map.mp he'
    have hxs : x ∈ L.insertionSort byPointsDesc := hperm.mem_iff.mpr hxL
    have hxs' : x' ∈ L.insertionSort byPointsDesc := hperm.mem_iff.mpr hxL'
    obtain ⟨hi, hgi⟩ := findIdx_get_self _ hsnd x hxs
    obtain ⟨hi', hgi'⟩ := findIdx_get_self _ hsnd x' hxs'
    have htp : x'.total_points < x.total_points := by
      rw [← hxe, ← hxe'] at hlt
      simpa using hlt
    refine ⟨rankOf (L.insertionSort byPointsDesc) x.user_id,
      rankOf (L.insertionSort byPointsDesc) x'.user_id, by rw [← hxe], by rw [← hxe'], ?_⟩
    have hsorted : (L.insertionSort byPointsDesc).Sorted byPointsDesc :=
      List.sorted_insertionSort byPointsDesc L
    have hlt2 : (L.insertionSort byPointsDesc).findIdx (fun y => decide (y.user_id = x.user_id))
        < (L.insertionSort byPointsDesc).findIdx (fun y => decide (y.user_id = x'.user_id)) := by
      rcases Nat.lt_trichotomy
          ((L.insertionSort byPointsDesc).findIdx (fun y => decide (y.user_id = x.user_id)))
          ((L.insertionSort byPointsDesc).findIdx (fun y => decide (y.user_id = x'.user_id)))
        with hc | hc | hc
      · exact hc
      · exfalso
        have : x = x' := by
          rw [← hgi, ← hgi']
          congr 1
          exact Fin.ext hc
        rw [this] at htp
        exact lt_irrefl _ htp
      · exfalso
        have hrel := List.Sorted.rel_get_of_lt hsorted
          (show (⟨_, hi'⟩ : Fin (List.insertionSort byPointsDesc L).length) < ⟨_, hi⟩ from
            Fin.mk_lt_mk.mpr hc)
        rw [hgi, hgi'] at hrel
        exact absurd htp (not_lt.mpr hrel)
    unfold rankOf
    omega

theorem mem_upsert_tp_bk (lb : List LeaderboardEntry) (e : LeaderboardEntry) :
    ∀ x ∈ upsertLeaderboard lb e,
      (x.total_points = e.total_points ∧ x.breakdown = e.breakdown) ∨
      ∃ y ∈ lb, x.total_points = y.total_points ∧ x.breakdown = y.breakdown := by
  intro x hx
  by_cases hany : lb.any (fun z => decide (z.user_id = e.user_id)) = true
  · rw [upsert_of_any_true lb e hany] at hx
    obtain ⟨y, hy, hyx⟩ := List.mem_map.mp hx
    by_cases hc : y.user_id = e.user_id
    · left
      rw [← hyx]
      simp [hc]
    · right
      refine ⟨y, hy, ?_⟩
      rw [← hyx]
      simp [hc]
  · simp only [upsertLeaderboard, hany, if_false, Bool.false_eq_true] at hx
    rcases List.mem_append.mp hx with hmem | hmem
    · exact Or.inr ⟨x, hmem, rfl, rfl⟩
    · rcases List.mem_singleton.mp hmem with rfl
      exact Or.inl ⟨rfl, rfl⟩

theorem calculate_quiz_points_intended_nonneg (db : DB) (sid : Nat) :
    0 ≤ calculate_quiz_points_intended db sid := by
  refine List.sum_nonneg ?_
  intro z hz
  obtain ⟨p, _, rfl⟩ := List.mem_map.mp hz
  by_cases hc : p.1.completed_at.isSome = true
  · simp only [hc, if_true]
    exact Int.natCast_nonneg _
  · simp [hc]

theorem computeEntry_intended_consistent (db : DB) (uid now : Nat) :
    breakdownConsistent (computeEntry_intended db uid now) :=
  ⟨rfl, calculate_quiz_points_intended_nonneg db uid,
    mul_nonneg (Int.natCast_nonneg _) (by norm_num),
    mul_nonneg (Int.natCast_nonneg _) (by norm_num),
    mul_nonneg (Int.natCast_nonneg _) (by norm_num)⟩

theorem refresh_preserves_consistent (db : DB) (uid now : Nat)
    (hd : ∀ e ∈ db.leaderboard, breakdownConsistent e) :
    ∀ e ∈ (refresh_user_leaderboard_intended db uid now).leaderboard, breakdownConsistent e := by
  intro e he
  obtain ⟨x, hx, _, htp, hbk, _⟩ := mem_assignRanks _ e he
  have hcore : e.total_points = x.total_points ∧ e.breakdown = x.breakdown := ⟨htp, hbk⟩
  rcases mem_upsert_tp_bk db.leaderboard (computeEntry_intended db uid now) x hx with ⟨ht, hb⟩ | ⟨y, hy, ht, hb⟩
  · have hce := computeEntry_intended_consistent db uid now
    unfold breakdownConsistent at hce ⊢
    rw [hcore.1, hcore.2, ht, hb]
    exact hce
  · have hy' := hd y hy
    unfold breakdownConsistent at hy' ⊢
    rw [hcore.1, hcore.2, ht, hb]
    exact hy'

theorem refresh_fold_consistent (now : Nat) :
    ∀ (ids : List Nat) (d : DB), (∀ e ∈ d.leaderboard, breakdownConsistent e) →
      ∀ e ∈ ((ids.foldl (fun acc i => refresh_user_leaderboard_intended acc i now) d)).leaderboard,
        breakdownConsistent e := by
  intro ids
  induction ids with
  | nil => intro d hd e he; exact hd e he
  | cons i t ih =>
    intro d hd e he
    exact ih (refresh_user_leaderboard_intended d i now)
      (refresh_preserves_consistent d i now hd) e he

/-- Every call of the real `refresh_user_leaderboard` raises: its first
statement invokes `calculate_quiz_points`, whose `jsonb = integer`
comparison fails to resolve independently of the database state. -/
theorem refresh_user_leaderboard_errors (db : DB) (uid now : Nat) :
    refresh_user_leaderboard db uid now = .error (.operatorDoesNotExist .jsonb .integer) := rfl

/-! ### Claims -/

/-- C1 (counterexample): with a single verified project tagged
`challenge`, the projects subtotal returned by the (statically clean,
executable) `calculate_project_points` is 100, not
`100 x (number of verified projects not tagged "challenge") = 0`, and
the project is counted by `calculate_challenge_points` as well, so it
accounts for 180 points across the two subtotals, not 80.  The final
conjuncts record that these two functions pass the name-resolution
checks that the quiz and assignment functions fail, so their results
are real program behaviour. -/
theorem C1_counterexample :
    calculate_project_points challengeOnlyDB 1 = 100 ∧
    (challengeOnlyDB.projects.filter
        (fun p => decide (p.owner_id = 1 ∧ p.verified = true ∧ ¬ "challenge" ∈ p.tags))).length = 0 ∧
    calculate_project_points challengeOnlyDB 1 + calculate_challenge_points challengeOnlyDB 1 = 180 ∧
    nameAmbiguous (tableColumns .projects) calculate_project_points_vars "owner_id" = false ∧
    nameAmbiguous (tableColumns .projects) calculate_project_points_vars "verified" = false ∧
    nameAmbiguous (tableColumns .projects) calculate_challenge_points_vars "tags" = false := by
  decide

/-- C1 (amended): the projects subtotal is 100 times the number of ALL
of the user's verified projects, challenge-tagged ones included
(`calculate_project_points` has no tag condition), and the challenges
subtotal is 80 times the verified challenge-tagged ones; adding one
verified challenge-tagged project raises the projects subtotal by 100,
the challenges subtotal by 80, and their sum by 180, while a verified
project without the tag raises only the projects subtotal, by 100.  (A
full recomputed total containing these subtotals is never assembled,
since the recomputation pipeline raises before reaching its INSERT.) -/
theorem C1_amended_theorem (db : DB) (uid : Nat) (p : Project)
    (db' : DB) (hdb' : db' = { db with projects := db.projects ++ [p] })
    (howner : p.owner_id = uid) (hver : p.verified = true) :
    ("challenge" ∈ p.tags →
      calculate_project_points db' uid = calculate_project_points db uid + 100 ∧
      calculate_challenge_points db' uid = calculate_challenge_points db uid + 80 ∧
      calculate_project_points db' uid + calculate_challenge_points db' uid
        = calculate_project_points db uid + calculate_challenge_points db uid + 180) ∧
    (¬ "challenge" ∈ p.tags →
      calculate_project_points db' uid = calculate_project_points db uid + 100 ∧
      calculate_challenge_points db' uid = calculate_challenge_points db uid ∧
      calculate_project_points db' uid + calculate_challenge_points db' uid
        = calculate_project_points db uid + calculate_challenge_points db uid + 100) := by
  subst hdb'
  constructor
  · intro hch
    have hp100 : calculate_project_points { db with projects := db.projects ++ [p] } uid
        = calculate_project_points db uid + 100 := by
      simp [calculate_project_points, List.filter_append, howner, hver]
      ring
    have hc80 : calculate_challenge_points { db with projects := db.projects ++ [p] } uid
        = calculate_challenge_points db uid + 80 := by
      simp [calculate_challenge_points, List.filter_append, howner, hver, hch]
      ring
    exact ⟨hp100, hc80, by rw [hp100, hc80]; ring⟩
  · intro hch
    have hp100 : calculate_project_points { db with projects := db.projects ++ [p] } uid
        = calculate_project_points db uid + 100 := by
      simp [calculate_project_points, List.filter_append, howner, hver]
      ring
    have hc0 : calculate_challenge_points { db with projects := db.projects ++ [p] } uid
        = calculate_challenge_points db uid := by
      simp [calculate_challenge_points, List.filter_append, howner, hver, hch]
    exact ⟨hp100, hc0, by rw [hp100, hc0]; ring⟩

/-- C1 (witness): the amended statement instantiated on the
single-challenge-project state. -/
theorem C1_amended_witness :
    calculate_project_points
        { challengeOnlyDB with projects := challengeOnlyDB.projects ++
            [{ id := 6, owner_id := 1, tags := ["challenge"], verified := true }] } 1
      = calculate_project_points challengeOnlyDB 1 + 100 ∧
    calculate_challenge_points
        { challengeOnlyDB with projects := challengeOnlyDB.projects ++
            [{ id := 6, owner_id := 1, tags := ["challenge"], verified := true }] } 1
      = calculate_challenge_points challengeOnlyDB 1 + 80 ∧
    calculate_project_points
        { challengeOnlyDB with projects := challengeOnlyDB.projects ++
            [{ id := 6, owner_id := 1, tags := ["challenge"], verified := true }] } 1
      + calculate_challenge_points
          { challengeOnlyDB with projects := challengeOnlyDB.projects ++
              [{ id := 6, owner_id := 1, tags := ["challenge"], verified := true }] } 1
      = calculate_project_points challengeOnlyDB 1
        + calculate_challenge_points challengeOnlyDB 1 + 180 :=
  (C1_amended_theorem challengeOnlyDB 1
      { id := 6, owner_id := 1, tags := ["challenge"], verified := true } _ rfl rfl rfl).1
    (by decide)

/-- C2 (code bug): the claim describes exactly what the function's own
comment ("1 point per correct answer") and query text intend, but the
function cannot run: its WHERE clause compares `ans.answer` (jsonb)
with `(ques.question->>'correctIndex')::integer` (integer), which
PostgreSQL cannot resolve, so every call raises 42883 when the
statement is planned, before reading any row.  First conjunct: the
faithful `calculate_quiz_points` errors on every input.  Second
conjunct: the intended (error-erased) computation equals the claim's
reading — 1 point per position whose submitted answer equals that
question's stored `correctIndex`, summed only over the student's
attempts with non-null `completed_at`, in-progress attempts
contributing 0 — given unique quiz ids (the `quizzes` primary key). -/
theorem C2_quiz_points_code_bug (db : DB) (sid : Nat)
    (hids : (db.quizzes.map Quiz.id).Nodup) :
    calculate_quiz_points db sid = .error (.operatorDoesNotExist .jsonb .integer) ∧
    calculate_quiz_points_intended db sid = quizPointsSpec db sid := by
  refine ⟨rfl, ?_⟩
  unfold calculate_quiz_points_intended quizPointsSpec
  rw [sum_crossJoin_filter]
  refine sum_map_eq_sum_filter_map _ _ _ _ ?_ ?_
  · intro qa _ hp
    simp only [decide_eq_true_eq] at hp
    have hfil : (fun q => decide (qa.quiz_id = q.id ∧ qa.student_id = sid))
        = (fun q : Quiz => decide (qa.quiz_id = q.id)) := by
      funext q
      simp [hp.1]
    rw [hfil, filter_id_eq_find db.quizzes qa.quiz_id hids]
    cases hfind : db.quizzes.find? (fun q => decide (qa.quiz_id = q.id)) with
    | none => simp
    | some q => simp [hp.2, correctAnswerCount_eq_spec]
  · intro qa _ hp
    have hp' : ¬ (qa.student_id = sid ∧ qa.completed_at.isSome = true) := by
      intro hcon
      simp [hcon.1, hcon.2] at hp
    by_cases hstu : qa.student_id = sid
    · have hcomp : qa.completed_at.isSome = false := by
        rcases Bool.eq_false_or_eq_true qa.completed_at.isSome with h | h
        · exact absurd ⟨hstu, h⟩ hp'
        · exact h
      simp [hcomp]
    · have hfil : db.quizzes.filter (fun q => decide (qa.quiz_id = q.id ∧ qa.student_id = sid))
          = [] := by
        refine List.filter_eq_nil_iff.mpr ?_
        intro q _
        simp [hstu]
      rw [hfil]
      simp

/-- C2 (witness): the error and the intended-reading equality
instantiated on the worked example, whose quiz-id list is
duplicate-free. -/
theorem C2_witness :
    (exampleDB.quizzes.map Quiz.id).Nodup ∧
    (calculate_quiz_points exampleDB 1 = .error (.operatorDoesNotExist .jsonb .integer) ∧
     calculate_quiz_points_intended exampleDB 1 = quizPointsSpec exampleDB 1) :=
  ⟨by decide, C2_quiz_points_code_bug exampleDB 1 (by decide)⟩

/-- C3 (code bug): the repository's own materials say the triggers
"automatically update leaderboard" on writes to the three source
tables, but every trigger fire aborts the triggering write instead of
upserting anything: the trigger function's first statement references
`NEW.student_id`, `NEW.owner_id` and `NEW.user_id`, each attached table
lacks at least two of those fields, and plpgsql raises
`record "new" has no field ...` (behind it, the subtotal statements
raise 42883/42702 and the rank statement 42702).  The last conjunct
records that no recompute trigger is attached to `leaderboard`
itself. -/
theorem C3_triggers_always_abort :
    ∀ (db : DB) (qa : QuizAttempt) (a : Assignment) (p : Project) (now : Nat),
      insertQuizAttempt db qa now = .error (.recordFieldMissing "new" "owner_id") ∧
      insertAssignment db a now = .error (.recordFieldMissing "new" "owner_id") ∧
      insertProject db p now = .error (.recordFieldMissing "new" "student_id") ∧
      updateProject db p now = .error (.recordFieldMissing "new" "student_id") ∧
      firesLeaderboardRecompute .leaderboard = false := by
  intro db qa a p now
  exact ⟨rfl, rfl, rfl, rfl, rfl⟩

/-- C4 (counterexample): running the recomputation twice never yields a
byte-identical leaderboard entry, because no run yields an entry at
all: on the empty database both runs raise 42883 (from the quiz
subtotal) and write nothing; and even the intended (error-erased)
pipeline is not byte-identical across runs, since the upsert writes
`updated_at = NOW()` (clock 1 vs clock 2 below). -/
theorem C4_counterexample :
    refresh_user_leaderboard emptyDB 1 1 = .error (.operatorDoesNotExist .jsonb .integer) ∧
    refresh_user_leaderboard emptyDB 1 2 = .error (.operatorDoesNotExist .jsonb .integer) ∧
    (refresh_user_leaderboard_intended (refresh_user_leaderboard_intended emptyDB 1 1) 1 2).leaderboard
      ≠ (refresh_user_leaderboard_intended emptyDB 1 1).leaderboard := by
  refine ⟨rfl, rfl, by decide⟩

/-- C4 (amended): `refresh_user_leaderboard` never completes — every
call raises 42883 inside `calculate_quiz_points`, so no entry is
produced, let alone a byte-identical one; and in the intended
(error-erased) semantics two consecutive runs with no intervening
source writes agree on every column that is a pure function of the
source tables (`user_id`, `total_points`, `breakdown`), while
`updated_at` is set to `NOW()` of each run and the rank tie order is
left unspecified by `ROW_NUMBER`. -/
theorem C4_amended_theorem (db : DB) (uid t1 t2 : Nat) :
    refresh_user_leaderboard db uid t1 = .error (.operatorDoesNotExist .jsonb .integer) ∧
    ((refresh_user_leaderboard_intended (refresh_user_leaderboard_intended db uid t1) uid t2).leaderboard).map entryDurable
      = ((refresh_user_leaderboard_intended db uid t1).leaderboard).map entryDurable := by
  refine ⟨rfl, ?_⟩
  have h := refresh_twice_core db.leaderboard (computeEntry_intended db uid t1)
    (computeEntry_intended (refresh_user_leaderboard_intended db uid t1) uid t2) rfl rfl rfl
  have hproj : ∀ (L : List LeaderboardEntry),
      L.map entryDurable = (L.map entryCore).map (fun q => (q.1, q.2.1, q.2.2.1)) := by
    intro L
    rw [List.map_map]
    rfl
  rw [hproj ((refresh_user_leaderboard_intended (refresh_user_leaderboard_intended db uid t1) uid t2).leaderboard),
    hproj ((refresh_user_leaderboard_intended db uid t1).leaderboard)]
  exact congrArg (List.map (fun q => (q.1, q.2.1, q.2.2.1))) h

/-- C5 (counterexample): on the [300, 200, 200, 100] configuration no
recomputation completes — the call raises 42883 before any rank is
written, and the rank-update statement itself is unexecutable: its bare
`total_points` (and `user_id` in `refresh_user_leaderboard`) is
ambiguous with the functions' plpgsql variables — so the claimed dense
ranking never comes to exist; and even in the intended (error-erased)
semantics the two entries whose totals are equal (users 2 and 3, both
200) receive distinct ranks, as `ROW_NUMBER` always gives, refuting
"equal totals receiving equal rank". -/
theorem C5_counterexample :
    refresh_user_leaderboard rankDB 1 9 = .error (.operatorDoesNotExist .jsonb .integer) ∧
    nameAmbiguous (tableColumns .leaderboard) update_leaderboard_vars "total_points" = true ∧
    nameAmbiguous (tableColumns .leaderboard) refresh_user_leaderboard_vars "user_id" = true ∧
    (((refresh_user_leaderboard_intended rankDB 1 9).leaderboard.find?
        (fun e => decide (e.user_id = 2))).map (fun e => e.total_points) = some 200 ∧
     ((refresh_user_leaderboard_intended rankDB 1 9).leaderboard.find?
        (fun e => decide (e.user_id = 3))).map (fun e => e.total_points) = some 200 ∧
     ((refresh_user_leaderboard_intended rankDB 1 9).leaderboard.find?
        (fun e => decide (e.user_id = 2))).map (fun e => e.rank)
       ≠ ((refresh_user_leaderboard_intended rankDB 1 9).leaderboard.find?
           (fun e => decide (e.user_id = 3))).map (fun e => e.rank)) := by
  refine ⟨rfl, by decide, by decide, by decide, by decide, by decide⟩

/-- C5 (amended): no recomputation ever rewrites the rank column — the
per-user recompute raises on every call (42883 first; the rank
statement's own bare `total_points` / `user_id` would raise 42702, as
the two `nameAmbiguous` conjuncts record) — and the statement's
intended `ROW_NUMBER` ranking is not a dense ranking: over rows with
distinct `user_id`s the assigned ranks are exactly the consecutive
integers 1..n, a strictly greater total gets a strictly smaller rank,
and equal totals get distinct ranks (both facts independent of the tie
order `ROW_NUMBER` leaves unspecified). -/
theorem C5_amended_theorem (db : DB) (uid now : Nat)
    (h : (db.leaderboard.map LeaderboardEntry.user_id).Nodup) :
    refresh_user_leaderboard db uid now = .error (.operatorDoesNotExist .jsonb .integer) ∧
    nameAmbiguous (tableColumns .leaderboard) update_leaderboard_vars "total_points" = true ∧
    nameAmbiguous (tableColumns .leaderboard) refresh_user_leaderboard_vars "user_id" = true ∧
    ((refresh_user_leaderboard_intended db uid now).leaderboard.map (fun e => e.rank)).Perm
        ((List.range' 1 (refresh_user_leaderboard_intended db uid now).leaderboard.length).map some) ∧
    (∀ e ∈ (refresh_user_leaderboard_intended db uid now).leaderboard,
      ∀ e' ∈ (refresh_user_leaderboard_intended db uid now).leaderboard,
        e'.total_points < e.total_points →
          ∃ k k', e.rank = some k ∧ e'.rank = some k' ∧ k < k') := by
  have hf := assignRanks_rank_facts
    (upsertLeaderboard db.leaderboard (computeEntry_intended db uid now))
    (upsert_ids_nodup db.leaderboard (computeEntry_intended db uid now) h)
  exact ⟨rfl, by decide, by decide, hf.1, hf.2⟩

/-- C5 (witness): the amended statement instantiated on the
[300, 200, 200, 100] state. -/
theorem C5_witness :
    (rankDB.leaderboard.map LeaderboardEntry.user_id).Nodup ∧
    refresh_user_leaderboard rankDB 1 9 = .error (.operatorDoesNotExist .jsonb .integer) ∧
    ((refresh_user_leaderboard_intended rankDB 1 9).leaderboard.map (fun e => e.rank)).Perm
        ((List.range' 1 (refresh_user_leaderboard_intended rankDB 1 9).leaderboard.length).map some) :=
  ⟨by decide, (C5_amended_theorem rankDB 1 9 (by decide)).1,
    (C5_amended_theorem rankDB 1 9 (by decide)).2.2.2.1⟩

/-- C6 (evaluation at the failing configuration): every leaderboard
write is rejected for a client role, including the INSERT/UPDATE issued
by the trigger function itself, because `update_leaderboard` is not
`SECURITY DEFINER` and the policies are unconditionally false; only
SELECT passes.  So the recomputation path cannot upsert when fired from
a client write, contradicting the claim's second half. -/
theorem C6_rls_rejects_recompute_upsert :
    leaderboardDmlAllowed clientCtx .insertOp = false ∧
    leaderboardDmlAllowed clientCtx .updateOp = false ∧
    leaderboardDmlAllowed clientCtx .deleteOp = false ∧
    leaderboardDmlAllowed (triggerExecCtx clientCtx) .insertOp = false ∧
    leaderboardDmlAllowed (triggerExecCtx clientCtx) .updateOp = false ∧
    leaderboardDmlAllowed clientCtx .selectOp = true := by
  decide

/-- C7 (counterexample): `refresh_all_leaderboard` deletes leaderboard
rows without any user being deleted.  On a state whose only user is a
mentor holding a leaderboard row, the call completes — there is no
student user, so the (erroring) per-user loop never runs — the DELETE
survives, the mentor's row is gone, and the user remains. -/
theorem C7_counterexample :
    refresh_all_leaderboard mentorLbDB 5 = .ok { mentorLbDB with leaderboard := [] } ∧
    mentorLbDB.leaderboard ≠ [] ∧
    mentorLbDB.users.any (fun u => decide (u.id = 1)) = true := by
  refine ⟨rfl, by decide, by decide⟩

/-- C7 (amended): leaderboard rows are removed by the user-deletion
cascade (`leaderboard.user_id REFERENCES users ON DELETE CASCADE`), and
additionally by `refresh_all_leaderboard`, which starts with
`DELETE FROM leaderboard`: with no student users the call completes and
every row is deleted while its user survives; with at least one student
user the loop raises and the whole call, DELETE included, rolls back.
The lazy-creation/upsert part of the original claim never happens:
`refresh_user_leaderboard` raises on every call and never creates or
updates a row. -/
theorem C7_amended_theorem :
    (∀ (db : DB) (uid : Nat),
        (deleteUser db uid).leaderboard.any (fun e => decide (e.user_id = uid)) = false) ∧
    (∀ (db : DB) (now : Nat), (∀ u ∈ db.users, ¬ u.role = Role.student) →
        refresh_all_leaderboard db now = .ok { db with leaderboard := [] }) ∧
    (∀ (db : DB) (now : Nat) (u : User), u ∈ db.users → u.role = Role.student →
        refresh_all_leaderboard db now = .error (.operatorDoesNotExist .jsonb .integer)) ∧
    (∀ (db : DB) (uid now : Nat),
        refresh_user_leaderboard db uid now = .error (.operatorDoesNotExist .jsonb .integer)) := by
  refine ⟨?_, ?_, ?_, fun db uid now => refresh_user_leaderboard_errors db uid now⟩
  · intro db uid
    rw [List.any_eq_false]
    intro e he
    have hmem := (List.mem_filter.mp he).2
    simp only [decide_eq_true_eq] at hmem ⊢
    exact hmem
  · intro db now hno
    have hfil : db.users.filter (fun u => decide (u.role = Role.student)) = [] := by
      refine List.filter_eq_nil_iff.mpr ?_
      intro u hu
      simp only [decide_eq_true_eq]
      exact hno u hu
    unfold refresh_all_leaderboard
    rw [hfil]
    rfl
  · intro db now u hu hrole
    cases hfil : db.users.filter (fun v => decide (v.role = Role.student)) with
    | nil =>
      exfalso
      have hmem : u ∈ db.users.filter (fun v => decide (v.role = Role.student)) :=
        List.mem_filter.mpr ⟨hu, by simp [hrole]⟩
      rw [hfil] at hmem
      cases hmem
    | cons w ws =>
      unfold refresh_all_leaderboard
      rw [hfil]
      rfl

/-- C7 (witness): the amended statement instantiated on concrete
states: the cascade removes user 2's row from the [300, 200, 200, 100]
state; the student-free mentor state is fully cleared by
`refresh_all_leaderboard`; the state with student users makes it
raise. -/
theorem C7_witness :
    (deleteUser rankDB 2).leaderboard.any (fun e => decide (e.user_id = 2)) = false ∧
    refresh_all_leaderboard mentorLbDB 5 = .ok { mentorLbDB with leaderboard := [] } ∧
    refresh_all_leaderboard rankDB 5 = .error (.operatorDoesNotExist .jsonb .integer) :=
  ⟨C7_amended_theorem.1 rankDB 2,
   C7_amended_theorem.2.1 mentorLbDB 5 (by decide),
   C7_amended_theorem.2.2.1 rankDB 5 { id := 1, role := .student } (by decide) rfl⟩

/-- C8 (code bug): the worked example's outcome is exactly what the
repository's own test script computes (8 x 1 + 20 + 100 = 128) and what
the intended (error-erased) recomputation produces — total 128,
breakdown {quizzes: 8, assignments: 20, projects: 100, challenges: 0},
stored for user 1 with rank 1 — but the real recomputation cannot
produce it: it raises 42883 in `calculate_quiz_points` (and
`calculate_assignment_points` and the rank statement would raise
42702), so no total is ever written for this or any state. -/
theorem C8_example_scenario :
    refresh_user_leaderboard exampleDB 1 500 = .error (.operatorDoesNotExist .jsonb .integer) ∧
    (computeEntry_intended exampleDB 1 500).total_points = 128 ∧
    (computeEntry_intended exampleDB 1 500).breakdown
      = { quizzes := 8, assignments := 20, projects := 100, challenges := 0 } ∧
    ((refresh_user_leaderboard_intended exampleDB 1 500).leaderboard.find?
        (fun e => decide (e.user_id = 1)))
      = some { user_id := 1, total_points := 128,
               breakdown := { quizzes := 8, assignments := 20, projects := 100, challenges := 0 },
               rank := some 1, updated_at := 500 } := by
  refine ⟨rfl, by decide, by decide, by decide⟩

/-- C9: against a provider that always times out, `callAI` makes
exactly 3 attempts with exponential backoff waits between them and
returns the typed `exhausted` failure (not a raw `AttemptFailure`), and
`gradeQuizAnswers` then reports no AI grading and falls back to the
deterministic basic score: the count of submitted answers equal to the
correct index at the same position. -/
theorem C9_retry_and_fallback :
    ∀ (answers : List Int) (questions : List Question),
      (callAI timeoutProvider).attemptsMade = maxAIAttempts ∧
      (callAI timeoutProvider).result = .error (.exhausted 3 .timeout) ∧
      (callAI timeoutProvider).waits = [backoffBeforeRetry 0, backoffBeforeRetry 1] ∧
      (gradeQuizAnswers timeoutProvider answers questions).aiGrading = none ∧
      (gradeQuizAnswers timeoutProvider answers questions).basicScore =
        (answers.zip questions).countP (fun p => decide (p.1 = p.2.correctIndex)) := by
  intro answers questions
  exact ⟨rfl, rfl, rfl, rfl, rfl⟩

/-- C10 (code bug): the claim states the invariant the recomputation's
INSERT evidently intends — `total_points` is written as the sum of the
four subtotals and the breakdown as exactly those values, each of which
is a count times a positive constant — but no recomputation path ever
writes a row: every per-user recompute raises 42883 before its INSERT,
and `refresh_all_leaderboard` either raises (students present) or only
deletes rows.  First conjunct: the faithful recompute errors on every
input.  Remaining conjuncts: in the intended (error-erased) semantics
the computed entry, the target user's stored row, and every row after a
full rebuild satisfy the invariant. -/
theorem C10_breakdown_invariant :
    (∀ (db : DB) (uid now : Nat),
        refresh_user_leaderboard db uid now = .error (.operatorDoesNotExist .jsonb .integer)) ∧
    (∀ (db : DB) (uid now : Nat), breakdownConsistent (computeEntry_intended db uid now)) ∧
    (∀ (db : DB) (uid now : Nat),
      ∀ e ∈ (refresh_user_leaderboard_intended db uid now).leaderboard,
        e.user_id = uid → breakdownConsistent e) ∧
    (∀ (db : DB) (now : Nat),
      ∀ e ∈ (refresh_all_leaderboard_intended db now).leaderboard, breakdownConsistent e) := by
  refine ⟨fun db uid now => refresh_user_leaderboard_errors db uid now,
    computeEntry_intended_consistent, ?_, ?_⟩
  · intro db uid now e he heu
    obtain ⟨x, hx, hxu, htp, hbk, _⟩ := mem_assignRanks _ e he
    have hxu' : x.user_id = (computeEntry_intended db uid now).user_id := by
      rw [← hxu, heu]
      rfl
    obtain ⟨htp', hbk', _⟩ :=
      upsert_uid_fields db.leaderboard (computeEntry_intended db uid now) x hx hxu'
    have hce := computeEntry_intended_consistent db uid now
    unfold breakdownConsistent at hce ⊢
    rw [htp, hbk, htp', hbk']
    exact hce
  · intro db now e he
    refine refresh_fold_consistent now _ { db with leaderboard := [] } ?_ e he
    intro x hx
    exact absurd hx (List.not_mem_nil x)

/-- C10 (witness): the invariant instantiated on the
[300, 200, 200, 100] state: the recompute call errors, while the
intended computed entry for user 1 and user 1's stored row after the
intended recomputation (total 300 = 0 + 300 + 0 + 0) satisfy the
invariant. -/
theorem C10_witness :
    refresh_user_leaderboard rankDB 1 9 = .error (.operatorDoesNotExist .jsonb .integer) ∧
    breakdownConsistent (computeEntry_intended rankDB 1 0) ∧
    breakdownConsistent
      { user_id := 1, total_points := 300,
        breakdown := { quizzes := 0, assignments := 300, projects := 0, challenges := 0 },
        rank := some 1, updated_at := 9 } :=
  ⟨C10_breakdown_invariant.1 rankDB 1 9,
   C10_breakdown_invariant.2.1 rankDB 1 0,
   C10_breakdown_invariant.2.2.1 rankDB 1 9
     { user_id := 1, total_points := 300,
       breakdown := { quizzes := 0, assignments := 300, projects := 0, challenges := 0 },
       rank := some 1, updated_at := 9 } (by decide) rfl⟩

end Opvera

